import Mathlib

/-!
Verification of the event-dispatch and connection-resilience subsystem of the
pyMeticulous client library (`meticulous/api.py`), shallowly embedded in Lean.

Durations and timestamps (Python floats holding seconds) are modelled as
rationals; the concrete values appearing in the spec (0.5, 4.0, ...) are dyadic,
so float arithmetic on them is exact and agrees with the rational model.
Byte buffers are modelled as lists of naturals, strings as Lean strings
(Python compares strings by code points, which is the order on `String.data`).
-/

/- ### EventThrottle (api.py lines 130-151) -/

/-- Model of `EventThrottle.__init__`: stores `interval` and sets `self._last_emit = 0.0`. -/
structure EventThrottle where
  interval : ℚ
  last_emit : ℚ
deriving DecidableEq

/-- Construction `EventThrottle(interval)`: `_last_emit` starts at `0.0`. -/
def EventThrottle.init (interval : ℚ) : EventThrottle :=
  { interval := interval, last_emit := 0 }

/-- Model of `EventThrottle.should_process`, with the call time `now` (Python reads
`time.time()`) passed explicitly.  Returns the boolean result together with the
updated object state. -/
def EventThrottle.should_process (t : EventThrottle) (now : ℚ) : Bool × EventThrottle :=
  if now - t.last_emit ≥ t.interval then
    (true, { t with last_emit := now })
  else
    (false, t)

/-- Driving one `EventThrottle` object through a sequence of calls at the given
times; returns the list of `should_process` results and the final state. -/
def EventThrottle.run (t : EventThrottle) : List ℚ → List Bool × EventThrottle
  | [] => ([], t)
  | now :: rest =>
    ((t.should_process now).1 :: ((t.should_process now).2.run rest).1,
      ((t.should_process now).2.run rest).2)

/-- Modelled from the spec: the acceptance rule as the spec words it — "the
first call of any sequence is always accepted", and afterwards a call is
accepted exactly when its time is at least the interval after the time of the
previously accepted call (inclusive boundary).  The `Option ℚ` argument is the
time of the previously accepted call, `none` meaning "never accepted". -/
def specAcceptedAux (d : ℚ) : Option ℚ → List ℚ → List Bool
  | _, [] => []
  | none, t :: ts => true :: specAcceptedAux d (some t) ts
  | some last, t :: ts =>
    if t - last ≥ d then true :: specAcceptedAux d (some t) ts
    else false :: specAcceptedAux d (some last) ts

/-- The spec-side acceptance sequence for a fresh gate. -/
def specAccepted (d : ℚ) (ts : List ℚ) : List Bool :=
  specAcceptedAux d none ts

/-- After the first acceptance the code and the spec rule coincide: a gate whose
`last_emit` is the time of the previously accepted call produces exactly the
spec's acceptance sequence. -/
theorem EventThrottle.run_eq_specAcceptedAux (d : ℚ) :
    ∀ (ts : List ℚ) (last : ℚ),
      ((EventThrottle.mk d last).run ts).1 = specAcceptedAux d (some last) ts := by
  intro ts
  induction ts with
  | nil => intro last; rfl
  | cons t rest ih =>
    intro last
    by_cases h : t - last ≥ d
    · simp [EventThrottle.run, EventThrottle.should_process, specAcceptedAux, h, ih]
    · simp [EventThrottle.run, EventThrottle.should_process, specAcceptedAux, h, ih]

/-- C2: as stated the claim is false on the code: `_last_emit` is initialised to
`0.0`, not to a "never accepted" sentinel, so a first call at time 1 with
interval 2 is rejected even though the spec rule always accepts the first
call. -/
theorem eventThrottle_first_call_rejected :
    (0:ℚ) < 2 ∧ List.Pairwise (· < ·) [(1:ℚ)] ∧
      ((EventThrottle.init 2).run [1]).1 = [false] ∧
      specAccepted 2 [1] = [true] := by
  refine ⟨by decide, by decide, ?_, rfl⟩
  norm_num [EventThrottle.init, EventThrottle.run, EventThrottle.should_process]

/-- C2 (amended): for every interval `d > 0` and strictly increasing call times
whose first time is at least `d`, the calls accepted by
`EventThrottle.should_process` are exactly those of the spec rule: the first
call is accepted, and afterwards a call is accepted iff its time is at least
`d` after the time of the previously accepted call, with an inclusive
boundary; moreover a rejected call leaves the gate state unchanged. -/
theorem eventThrottle_spacing (d : ℚ) (ts : List ℚ)
    (hd : 0 < d) (hmono : List.Pairwise (· < ·) ts)
    (hfirst : d ≤ ts.headD d) :
    ((EventThrottle.init d).run ts).1 = specAccepted d ts ∧
      ∀ (t : EventThrottle) (now : ℚ),
        (t.should_process now).1 = false → (t.should_process now).2 = t := by
  constructor
  · cases ts with
    | nil => rfl
    | cons t0 rest =>
      have h0 : d ≤ t0 := hfirst
      have hacc : t0 - (0:ℚ) ≥ d := by simpa using h0
      simp only [EventThrottle.init, EventThrottle.run, EventThrottle.should_process,
        specAccepted, specAcceptedAux, if_pos hacc]
      simpa using EventThrottle.run_eq_specAcceptedAux d rest t0
  · intro t now h
    unfold EventThrottle.should_process at h ⊢
    by_cases hc : now - t.last_emit ≥ t.interval
    · simp [hc] at h
    · simp [hc]

/-- C2 witness. -/
theorem eventThrottle_spacing_witness :
    (0:ℚ) < 2 ∧ List.Pairwise (· < ·) [(2:ℚ), 3, 4] ∧
      (((EventThrottle.init 2).run [2, 3, 4]).1 = specAccepted 2 [2, 3, 4] ∧
        ∀ (t : EventThrottle) (now : ℚ),
          (t.should_process now).1 = false → (t.should_process now).2 = t) :=
  ⟨by decide, by decide,
    eventThrottle_spacing 2 [2, 3, 4] (by decide) (by decide) (by decide)⟩

/-- With a non-positive interval the gate accepts every call in a nondecreasing
nonnegative sequence, but each accepted call overwrites `_last_emit` with the
call time (the `should_process` true-branch always assigns). -/
theorem EventThrottle.run_nonpos_interval (d : ℚ) (hd : d ≤ 0) :
    ∀ (ts : List ℚ) (last : ℚ), (∀ t ∈ ts, last ≤ t) → List.Pairwise (· ≤ ·) ts →
      (EventThrottle.mk d last).run ts =
        (List.replicate ts.length true, EventThrottle.mk d (ts.getLastD last)) := by
  intro ts
  induction ts with
  | nil => intro last _ _; rfl
  | cons t0 rest ih =>
    intro last hlast hmono
    have h0 : last ≤ t0 := hlast t0 (by simp)
    have hacc : t0 - last ≥ d := by linarith
    have hrest : ∀ t ∈ rest, t0 ≤ t := by
      intro t ht
      exact (List.pairwise_cons.mp hmono).1 t ht
    simp only [EventThrottle.run, EventThrottle.should_process, if_pos hacc,
      ih t0 hrest (List.pairwise_cons.mp hmono).2, List.length_cons, List.replicate_succ,
      List.getLastD_cons]
  /- the true branch built `{ mk d last with last_emit := t0 }`, which is `mk d t0` -/

/-- C7: the claim's second half is false on the code: with interval 0 a single
call at time 1 returns true but mutates the gate's last-accepted timestamp from
0 to 1, so the degenerate mode does touch state. -/
theorem eventThrottle_zero_interval_touches_state :
    ((EventThrottle.init 0).run [1]).1 = [true] ∧
      ((EventThrottle.init 0).run [1]).2 ≠ EventThrottle.init 0 := by
  constructor
  · norm_num [EventThrottle.init, EventThrottle.run, EventThrottle.should_process]
  · intro h
    have : (((EventThrottle.init 0).run [1]).2).last_emit = 0 := by rw [h]; rfl
    norm_num [EventThrottle.init, EventThrottle.run, EventThrottle.should_process] at this

/-- C7 (amended): for every interval `d ≤ 0` and every nondecreasing sequence of
nonnegative call times, every call to `should_process` returns true; but each
call updates the gate's last-accepted timestamp to the call time (the final
state holds the last call time), rather than never touching state. -/
theorem eventThrottle_nonpos_interval (d : ℚ) (ts : List ℚ) (hd : d ≤ 0)
    (hnn : ∀ t ∈ ts, 0 ≤ t) (hmono : List.Pairwise (· ≤ ·) ts) :
    ((EventThrottle.init d).run ts).1 = List.replicate ts.length true ∧
      ((EventThrottle.init d).run ts).2 = EventThrottle.mk d (ts.getLastD 0) := by
  have h := EventThrottle.run_nonpos_interval d hd ts 0 hnn hmono
  rw [EventThrottle.init, h]
  exact ⟨rfl, rfl⟩

/-- C7 witness. -/
theorem eventThrottle_nonpos_interval_witness :
    (0:ℚ) ≤ 0 ∧ (∀ t ∈ [(0:ℚ), 1, 2], 0 ≤ t) ∧ List.Pairwise (· ≤ ·) [(0:ℚ), 1, 2] ∧
      (((EventThrottle.init 0).run [0, 1, 2]).1 = List.replicate 3 true ∧
        ((EventThrottle.init 0).run [0, 1, 2]).2 = EventThrottle.mk 0 2) :=
  ⟨by decide, by decide, by decide,
    eventThrottle_nonpos_interval 0 [0, 1, 2] (by decide) (by decide) (by decide)⟩

/- ### Api.connect_to_socket (api.py lines 183-200) -/

/-- The `while True` loop body of `Api.connect_to_socket`, with the outcome of
each `self.sio.connect` call supplied by the oracle `f` (`f n = none` means the
n-th attempt, 0-based, succeeds; `f n = some e` means it raises `e`).
`remaining = retries - attemptIdx`, so the code's `attempt > retries` test
(after `attempt += 1`) is exactly `remaining = 0`.  Returns the call outcome
(`Except.error e` models the re-raised exception), the number of connection
attempts performed, and the list of sleep durations in order. -/
def connectLoop {ε : Type} (f : Nat → Option ε) (max_backoff : ℚ) :
    Nat → Nat → ℚ → Except ε Unit × Nat × List ℚ
  | attemptIdx, remaining, delay =>
    match f attemptIdx with
    | none => (Except.ok (), attemptIdx + 1, [])
    | some e =>
      match remaining with
      | 0 => (Except.error e, attemptIdx + 1, [])
      | r + 1 =>
        ((connectLoop f max_backoff (attemptIdx + 1) r (min (delay * 2) max_backoff)).1,
          (connectLoop f max_backoff (attemptIdx + 1) r (min (delay * 2) max_backoff)).2.1,
          delay ::
            (connectLoop f max_backoff (attemptIdx + 1) r (min (delay * 2) max_backoff)).2.2)

/-- Model of `Api.connect_to_socket(retries, backoff, max_backoff)`: starts with
`attempt = 0` and `delay = backoff`. -/
def connect_to_socket {ε : Type} (f : Nat → Option ε)
    (retries : Nat) (backoff max_backoff : ℚ) : Except ε Unit × Nat × List ℚ :=
  connectLoop f max_backoff 0 retries backoff

/-- Doubling under the running cap equals capping the doubled ideal value. -/
theorem min_double_pow (b m : ℚ) (hb : 0 < b) (hbm : b ≤ m) (n : Nat) :
    min (min (b * 2) m * 2 ^ n) m = min (b * 2 ^ (n + 1)) m := by
  have hm : 0 < m := lt_of_lt_of_le hb hbm
  have hpow : (1:ℚ) ≤ 2 ^ n := one_le_pow₀ (by norm_num)
  rcases le_total (b * 2) m with h | h
  · rw [min_eq_left h, pow_succ]
    ring_nf
  · have hps : (2:ℚ) ^ (n + 1) = 2 ^ n * 2 := pow_succ 2 n
    have h1 : m ≤ m * 2 ^ n := by nlinarith
    have h2 : m ≤ b * 2 ^ (n + 1) := by nlinarith
    rw [min_eq_right h, min_eq_right h1, min_eq_right h2]

/-- When every attempt fails, the loop makes one attempt per remaining retry
plus the final one, re-raises the last failure, and sleeps
`min(delay * 2^n, max_backoff)` before the (n+1)-th retry. -/
theorem connectLoop_all_fail {ε : Type} (e : Nat → ε) (f : Nat → Option ε)
    (hf : ∀ n, f n = some (e n)) (m : ℚ) :
    ∀ (remaining attemptIdx : Nat) (b : ℚ), 0 < b → b ≤ m →
      connectLoop f m attemptIdx remaining b =
        (Except.error (e (attemptIdx + remaining)), attemptIdx + remaining + 1,
          (List.range remaining).map fun n => min (b * 2 ^ n) m) := by
  intro remaining
  induction remaining with
  | zero =>
    intro attemptIdx b _ _
    simp [connectLoop, hf attemptIdx]
  | succ r ih =>
    intro attemptIdx b hb hbm
    have hm : 0 < m := lt_of_lt_of_le hb hbm
    have hb2 : 0 < min (b * 2) m := lt_min (by linarith) hm
    have hb2m : min (b * 2) m ≤ m := min_le_right _ _
    rw [connectLoop, hf attemptIdx]
    simp only [ih (attemptIdx + 1) (min (b * 2) m) hb2 hb2m]
    have hidx : attemptIdx + 1 + r = attemptIdx + (r + 1) := by omega
    rw [hidx, List.range_succ_eq_map, List.map_cons, List.map_map]
    simp only [Prod.mk.injEq, List.cons.injEq]
    refine ⟨trivial, trivial, by rw [pow_zero, mul_one, min_eq_left hbm], ?_⟩
    apply List.map_congr_left
    intro n _
    exact min_double_pow b m hb hbm n

/-- C1: if every connection attempt fails, `connect_to_socket` with
`retries = r`, `backoff = b > 0` and `max_backoff = m ≥ b` performs exactly
`r + 1` attempts and `r` sleeps, the n-th sleep (0-based n) lasting
`min(b * 2^n, m)`, and then re-raises the failure of the last attempt; in
particular with `b = 0.5, m = 4, r = 4` the sleeps are exactly
`[0.5, 1.0, 2.0, 4.0]` and the call raises after the 5th failed attempt, and
with `r = 0` the first failure propagates with zero sleeps and one attempt. -/
theorem connect_to_socket_backoff {ε : Type} (e : Nat → ε) (f : Nat → Option ε)
    (r : Nat) (b m : ℚ) (hb : 0 < b) (hbm : b ≤ m) (hf : ∀ n, f n = some (e n)) :
    connect_to_socket f r b m =
        (Except.error (e r), r + 1, (List.range r).map fun n => min (b * 2 ^ n) m) ∧
      connect_to_socket (fun n => some n) 4 (1/2) 4 =
        (Except.error 4, 5, [1/2, 1, 2, 4]) ∧
      connect_to_socket f 0 b m = (Except.error (e 0), 1, []) := by
  refine ⟨?_, ?_, ?_⟩
  · have h := connectLoop_all_fail e f hf m r 0 b hb hbm
    simpa [connect_to_socket] using h
  · norm_num [connect_to_socket, connectLoop]
  · have h := connectLoop_all_fail e f hf m 0 0 b hb hbm
    simpa [connect_to_socket] using h

/-- C1 witness. -/
theorem connect_to_socket_backoff_witness :
    (0:ℚ) < 1 ∧ (1:ℚ) ≤ 4 ∧
      (connect_to_socket (fun n => some n) 2 1 4 =
          (Except.error 2, 3, (List.range 2).map fun n => min ((1:ℚ) * 2 ^ n) 4) ∧
        connect_to_socket (fun n => some n) 4 (1/2) 4 =
          (Except.error 4, 5, [1/2, 1, 2, 4]) ∧
        connect_to_socket (fun n => some n) 0 1 4 = (Except.error 0, 1, [])) :=
  ⟨by decide, by decide,
    connect_to_socket_backoff (fun n => n) (fun n => some n) 2 1 4
      (by decide) (by decide) (fun n => rfl)⟩

/- ### ApiOptions: throttle resolution and handler registration (api.py 65-127) -/

/-- The `throttle` field of `ApiOptions`: `None`, a scalar (int/float), or a
dict from event name to duration. -/
inductive ThrottleSpec where
  | scalar (v : ℚ)
  | mapping (m : List (String × ℚ))
  | noSpec
deriving DecidableEq

/-- The `interval` local of `register_handlers`: a scalar throttle applies to
every event, a dict throttle is looked up by event name (`dict.get`, `none`
when absent), no throttle gives `None`. -/
def resolveInterval : ThrottleSpec → String → Option ℚ
  | .scalar v, _ => some v
  | .mapping m, ev => m.lookup ev
  | .noSpec, _ => none

/-- How one callback ends up bound on the socket: directly, or wrapped by a
`throttled_handler` closure holding an `EventThrottle` gate. -/
inductive Binding where
  | direct
  | throttled (gate : EventThrottle)
deriving DecidableEq

/-- The binding decision of `register_handlers` for one event name: Python's
`if interval and interval > 0` is truthiness (`interval` not `None` and not
`0.0`) conjoined with the comparison, and the wrapped handler gets a fresh
`EventThrottle(interval=interval)`. -/
def register_binding (throttle : ThrottleSpec) (event_name : String) : Binding :=
  match resolveInterval throttle event_name with
  | some interval =>
    if interval ≠ 0 ∧ interval > 0 then Binding.throttled (EventThrottle.init interval)
    else Binding.direct
  | none => Binding.direct

/-- Delivery of one incoming payload through a binding at call time `now`:
`throttled_handler` calls the user callback exactly when
`gate.should_process()` is true and otherwise returns `None`, dropping the
payload; the first component is the payload handed to the callback (`none` =
discarded, nothing queued or buffered). -/
def Binding.handle {α : Type} : Binding → ℚ → α → Option α × Binding
  | .direct, _, payload => (some payload, .direct)
  | .throttled g, now, payload =>
    ((if (g.should_process now).1 then some payload else none),
      .throttled (g.should_process now).2)

/-- C3: per-event resolution of the throttle configuration: a scalar spec gives
that scalar for every kind; a mapping gives its entry when present and `none`
when absent; a positive resolved interval produces a fresh-gated wrapped
binding, a zero/negative or absent interval a direct binding; the wrapped
binding invokes the callback exactly when `should_process` is true and
otherwise discards the payload with nothing buffered; and on the spec's
example `{"status": 0.25, "sensors": 0.5}` the kind "button" is unthrottled
while "status" and "sensors" are gated at their intervals. -/
theorem register_binding_resolution (s : ℚ) (m : List (String × ℚ)) (k : String) :
    resolveInterval (ThrottleSpec.scalar s) k = some s
  ∧ resolveInterval (ThrottleSpec.mapping m) k = m.lookup k
  ∧ resolveInterval ThrottleSpec.noSpec k = none
  ∧ (∀ t i, resolveInterval t k = some i → 0 < i →
      register_binding t k = Binding.throttled (EventThrottle.init i))
  ∧ (∀ t i, resolveInterval t k = some i → i ≤ 0 →
      register_binding t k = Binding.direct)
  ∧ (∀ t, resolveInterval t k = none → register_binding t k = Binding.direct)
  ∧ (∀ (g : EventThrottle) (now : ℚ) (p : Nat),
      ((g.should_process now).1 = true →
        Binding.handle (Binding.throttled g) now p =
          (some p, Binding.throttled (g.should_process now).2))
      ∧ ((g.should_process now).1 = false →
        Binding.handle (Binding.throttled g) now p =
          (none, Binding.throttled (g.should_process now).2)))
  ∧ (∀ (now : ℚ) (p : Nat), Binding.handle Binding.direct now p = (some p, Binding.direct))
  ∧ register_binding (ThrottleSpec.mapping [("status", 1/4), ("sensors", 1/2)]) "button"
      = Binding.direct
  ∧ register_binding (ThrottleSpec.mapping [("status", 1/4), ("sensors", 1/2)]) "status"
      = Binding.throttled (EventThrottle.init (1/4))
  ∧ register_binding (ThrottleSpec.mapping [("status", 1/4), ("sensors", 1/2)]) "sensors"
      = Binding.throttled (EventThrottle.init (1/2)) := by
  refine ⟨rfl, rfl, rfl, ?_, ?_, ?_, ?_, ?_, ?_, ?_, ?_⟩
  · intro t i hres hi
    simp only [register_binding, hres]
    rw [if_pos ⟨ne_of_gt hi, hi⟩]
  · intro t i hres hi
    simp only [register_binding, hres]
    rw [if_neg (fun h => absurd h.2 (not_lt.mpr hi))]
  · intro t hres
    simp only [register_binding, hres]
  · intro g now p
    constructor
    · intro h
      simp [Binding.handle, h]
    · intro h
      simp [Binding.handle, h]
  · intro now p
    rfl
  · have h1 : (("button":String) == "status") = false := by decide
    have h2 : (("button":String) == "sensors") = false := by decide
    simp [register_binding, resolveInterval, List.lookup, h1, h2]
  · have h1 : (("status":String) == "status") = true := by decide
    norm_num [register_binding, resolveInterval, List.lookup, h1]
  · have h1 : (("sensors":String) == "status") = false := by decide
    have h2 : (("sensors":String) == "sensors") = true := by decide
    norm_num [register_binding, resolveInterval, List.lookup, h1, h2]

/-- C3 witness. -/
theorem register_binding_resolution_witness :
    (List.lookup "button" [("status", (1:ℚ)), ("sensors", 2)] = none →
      register_binding (ThrottleSpec.mapping [("status", (1:ℚ)), ("sensors", 2)]) "button"
        = Binding.direct)
  ∧ register_binding (ThrottleSpec.mapping [("status", (1:ℚ)), ("sensors", 2)]) "status"
      = Binding.throttled (EventThrottle.init 1) :=
  ⟨fun _ => (register_binding_resolution 1 [("status", (1:ℚ)), ("sensors", 2)] "button").2.2.2.2.2.1
      (ThrottleSpec.mapping [("status", (1:ℚ)), ("sensors", 2)]) (by decide),
    (register_binding_resolution 1 [("status", (1:ℚ)), ("sensors", 2)] "status").2.2.2.1
      (ThrottleSpec.mapping [("status", (1:ℚ)), ("sensors", 2)]) 1 (by decide) (by decide)⟩

/-- The declared first-parameter type of each `ApiOptions` callback slot
(api_types.py): most are pydantic models decorated with `@on_event`, but
`onSettingsChange` takes a plain `Dict`. -/
inductive ParamType where
  | StatusData | SensorsEvent | Communication | Actuators | MachineInfo
  | ButtonEvent | PlainDict | NotificationData | ProfileEvent | HeaterStatus
  | OSUpdateEvent
deriving DecidableEq

/-- Model of `getattr(cls, "_socketio_event")` guarded by `hasattr`: the event name the
`@on_event` decorator attached to the class, `none` when the type (such as the
plain `Dict` of `onSettingsChange`) carries no `_socketio_event` attribute. -/
def socketio_event_attr : ParamType → Option String
  | .StatusData => some "status"
  | .SensorsEvent => some "sensors"
  | .Communication => some "communication"
  | .Actuators => some "actuators"
  | .MachineInfo => some "info"
  | .ButtonEvent => some "button"
  | .PlainDict => none
  | .NotificationData => some "notification"
  | .ProfileEvent => some "profile"
  | .HeaterStatus => some "heater_status"
  | .OSUpdateEvent => some "OSUpdate"

/-- The callback slots of `ApiOptions` (the `throttle` field is skipped by the
reflection since `float` has no callable parameters). -/
inductive FieldName where
  | onStatus | onSensors | onTemperatureSensors | onCommunication | onActuators
  | onMachineInfo | onButton | onSettingsChange | onNotification
  | onProfileChange | onHeaterStatus | onOSUpdate
deriving DecidableEq

/-- The declared parameter type of each callback slot (api.py lines 67-78). -/
def callback_param : FieldName → ParamType
  | .onStatus => .StatusData
  | .onSensors => .SensorsEvent
  | .onTemperatureSensors => .SensorsEvent
  | .onCommunication => .Communication
  | .onActuators => .Actuators
  | .onMachineInfo => .MachineInfo
  | .onButton => .ButtonEvent
  | .onSettingsChange => .PlainDict
  | .onNotification => .NotificationData
  | .onProfileChange => .ProfileEvent
  | .onHeaterStatus => .HeaterStatus
  | .onOSUpdate => .OSUpdateEvent

/-- Model of `ApiOptions.__post_init__`: the `_<field>_event_name` slot recorded for a
present handler — the parameter type's `_socketio_event` attribute when it has
one, otherwise nothing is recorded (`getattr(..., None)` later yields `None`). -/
def post_init_event_name (f : FieldName) : Option String :=
  socketio_event_attr (callback_param f)

/-- Declaration order of the callback slots in the dataclass. -/
def api_callback_fields : List FieldName :=
  [.onStatus, .onSensors, .onTemperatureSensors, .onCommunication, .onActuators,
    .onMachineInfo, .onButton, .onSettingsChange, .onNotification,
    .onProfileChange, .onHeaterStatus, .onOSUpdate]

/-- Model of `ApiOptions.register_handlers`: for each dataclass field whose handler is
set (`present`) and whose `_<field>_event_name` slot was recorded, perform one
`sio.on(event_name, ...)` registration, throttled or direct per
`register_binding`; the returned list is the sequence of registrations. -/
def register_handlers (present : FieldName → Bool) (throttle : ThrottleSpec) :
    List (String × FieldName × Binding) :=
  api_callback_fields.filterMap fun fld =>
    if present fld then
      match post_init_event_name fld with
      | some ev => some (ev, fld, register_binding throttle ev)
      | none => none
    else none

/-- C9: the `onSettingsChange` slot's declared parameter type is a plain `Dict`
carrying no `_socketio_event` attribute, so `__post_init__` records no event
name for it and `register_handlers` never emits a registration for it —
whatever handlers are present and whatever the throttle configuration, no
incoming frame can ever invoke the `onSettingsChange` callback. -/
theorem onSettingsChange_never_registered :
    post_init_event_name FieldName.onSettingsChange = none ∧
      ∀ (present : FieldName → Bool) (throttle : ThrottleSpec),
        ((register_handlers present throttle).all
          fun r => r.2.1 != FieldName.onSettingsChange) = true := by
  refine ⟨rfl, ?_⟩
  intro present throttle
  rw [List.all_eq_true]
  intro r hr
  simp only [register_handlers, List.mem_filterMap] at hr
  obtain ⟨fld, _, hsome⟩ := hr
  by_cases hp : present fld
  · rw [if_pos hp] at hsome
    cases hev : post_init_event_name fld with
    | none => rw [hev] at hsome; cases hsome
    | some ev =>
      rw [hev] at hsome
      cases hsome
      have hne : fld ≠ FieldName.onSettingsChange := by
        intro h
        rw [h] at hev
        cases hev
      simpa using hne
  · rw [if_neg hp] at hsome
    cases hsome

/- ### ActionType and the Socket.IO action allowlist (api_types.py 17-27, api.py 155-217) -/

/-- The `ActionType` enum of api_types.py. -/
inductive ActionType where
  | start | stop | continue_ | reset | tare | preheat
  | scale_master_calibration | home | purge | abort
deriving DecidableEq

/-- The string value of each `ActionType` member (`continue_` models the
Python member named CONTINUE, whose value is "continue"). -/
def ActionType.value : ActionType → String
  | .start => "start"
  | .stop => "stop"
  | .continue_ => "continue"
  | .reset => "reset"
  | .tare => "tare"
  | .preheat => "preheat"
  | .scale_master_calibration => "scale_master_calibration"
  | .home => "home"
  | .purge => "purge"
  | .abort => "abort"

/-- The full REST action vocabulary: the values of every `ActionType` member. -/
def actionTypeValues : List String :=
  [ActionType.start.value, ActionType.stop.value, ActionType.continue_.value,
    ActionType.reset.value, ActionType.tare.value, ActionType.preheat.value,
    ActionType.scale_master_calibration.value, ActionType.home.value,
    ActionType.purge.value, ActionType.abort.value]

/-- Model of `Api.ALLOWED_SOCKETIO_ACTIONS` (a Python set, modelled as the list of its
member expressions; only membership is ever used). -/
def ALLOWED_SOCKETIO_ACTIONS : List String :=
  [ActionType.start.value, ActionType.stop.value, ActionType.continue_.value,
    ActionType.tare.value, ActionType.preheat.value,
    ActionType.scale_master_calibration.value, ActionType.home.value,
    ActionType.purge.value, ActionType.abort.value]

/-- Model of `Api.send_action_socketio`: raises `ValueError` (modelled as
`Except.error` with the message) for an action outside the allowlist, else
emits exactly one frame `("action", action.value)`; the returned list is the
sequence of frames emitted on the socket. -/
def send_action_socketio (action : ActionType) : Except String (List (String × String)) :=
  if action.value ∉ ALLOWED_SOCKETIO_ACTIONS then
    Except.error ("Unsupported Socket.IO action: " ++ action.value)
  else
    Except.ok [("action", action.value)]

/-- C5: for every action whose token is outside the allowlist,
`send_action_socketio` raises (returns the `ValueError`) and emits no frame;
for every action whose token is in the allowlist it emits exactly one frame
carrying the action token and raises nothing. -/
theorem send_action_socketio_allowlist (a : ActionType) :
    (a.value ∉ ALLOWED_SOCKETIO_ACTIONS →
      send_action_socketio a =
        Except.error ("Unsupported Socket.IO action: " ++ a.value)) ∧
    (a.value ∈ ALLOWED_SOCKETIO_ACTIONS →
      send_action_socketio a = Except.ok [("action", a.value)]) := by
  constructor
  · intro h
    rw [send_action_socketio, if_pos h]
  · intro h
    rw [send_action_socketio, if_neg (by simpa using h)]

/-- C5 witness: "reset" is rejected with no frame emitted, "start" is emitted
as a single frame. -/
theorem send_action_socketio_allowlist_witness :
    ActionType.reset.value ∉ ALLOWED_SOCKETIO_ACTIONS ∧
      ActionType.start.value ∈ ALLOWED_SOCKETIO_ACTIONS ∧
      send_action_socketio ActionType.reset =
        Except.error ("Unsupported Socket.IO action: " ++ ActionType.reset.value) ∧
      send_action_socketio ActionType.start =
        Except.ok [("action", ActionType.start.value)] :=
  ⟨by decide, by decide,
    (send_action_socketio_allowlist ActionType.reset).1 (by decide),
    (send_action_socketio_allowlist ActionType.start).2 (by decide)⟩

/-- C8: the Socket.IO allowlist is a strict subset of the full REST action
vocabulary: every allowlisted token is an `ActionType` value, and the
`ActionType` value "reset" is absent from the allowlist. -/
theorem allowed_socketio_strict_subset :
    (ALLOWED_SOCKETIO_ACTIONS.all fun t => actionTypeValues.contains t) = true ∧
      actionTypeValues.contains ActionType.reset.value = true ∧
      ALLOWED_SOCKETIO_ACTIONS.contains ActionType.reset.value = false := by
  refine ⟨by decide, by decide, by decide⟩

/- ### Api.get_shot_log decode chain (api.py 715-742) -/

/-- Model of `APIError` (api_types.py): both fields optional strings. -/
structure APIError where
  error : Option String
  status : Option String
deriving DecidableEq

/-- The zstd compressed-frame magic number 0xFD2FB528 as it appears
little-endian at the start of the byte stream. -/
def zstdMagic : List Nat := [0x28, 0xb5, 0x2f, 0xfd]

/-- The decode chain of `Api.get_shot_log` on a fetched body `content`:
`content.startswith(magic)` decides whether to run zstd decompression
(`decompress`, whose failure is the caught `ZstdError` message) and the result
is then parsed as JSON (`parse_json`, whose failure is the caught
`JSONDecodeError` message).  Both failures are returned as `APIError` values,
not raised. -/
def get_shot_log_decode {Doc : Type}
    (decompress : List Nat → Except String (List Nat))
    (parse_json : List Nat → Except String Doc)
    (content : List Nat) : Except APIError Doc :=
  let step : Except APIError (List Nat) :=
    if zstdMagic.isPrefixOf content then
      match decompress content with
      | Except.error exc =>
        Except.error { status := some "Decompression Error", error := some exc }
      | Except.ok decompressed => Except.ok decompressed
    else Except.ok content
  match step with
  | Except.error e => Except.error e
  | Except.ok bytes =>
    match parse_json bytes with
    | Except.error exc =>
      Except.error { status := some "JSON Parse Error", error := some exc }
    | Except.ok doc => Except.ok doc

/-- C4: the decoder inspects the first 4 bytes; when they equal the zstd magic
sequence it attempts decompression and on failure returns (not raises) a
failure value tagged "Decompression Error" carrying the underlying message;
without the magic the bytes are treated as already decompressed; in either
branch the bytes are parsed as JSON, a parse failure yielding a returned
failure tagged "JSON Parse Error" carrying the underlying message, and a parse
success yielding the parsed document. -/
theorem get_shot_log_decode_spec {Doc : Type}
    (dec : List Nat → Except String (List Nat))
    (pj : List Nat → Except String Doc) (content : List Nat) :
    (zstdMagic.isPrefixOf content = true →
      (∀ msg, dec content = Except.error msg →
        get_shot_log_decode dec pj content =
          Except.error { error := some msg, status := some "Decompression Error" }) ∧
      (∀ out, dec content = Except.ok out →
        (∀ msg, pj out = Except.error msg →
          get_shot_log_decode dec pj content =
            Except.error { error := some msg, status := some "JSON Parse Error" }) ∧
        (∀ doc, pj out = Except.ok doc →
          get_shot_log_decode dec pj content = Except.ok doc))) ∧
    (zstdMagic.isPrefixOf content = false →
      (∀ msg, pj content = Except.error msg →
        get_shot_log_decode dec pj content =
          Except.error { error := some msg, status := some "JSON Parse Error" }) ∧
      (∀ doc, pj content = Except.ok doc →
        get_shot_log_decode dec pj content = Except.ok doc)) := by
  constructor
  · intro hmagic
    constructor
    · intro msg hdec
      simp only [get_shot_log_decode, hmagic, if_true, hdec]
    · intro out hdec
      constructor
      · intro msg hpj
        simp only [get_shot_log_decode, hmagic, if_true, hdec, hpj]
      · intro doc hpj
        simp only [get_shot_log_decode, hmagic, if_true, hdec, hpj]
  · intro hmagic
    constructor
    · intro msg hpj
      simp only [get_shot_log_decode, hmagic, Bool.false_eq_true, if_false, hpj]
    · intro doc hpj
      simp only [get_shot_log_decode, hmagic, Bool.false_eq_true, if_false, hpj]

/-- C4 witness: a buffer that is exactly the magic number with a failing
decompressor yields the tagged decompression failure; a non-magic buffer with
a failing JSON parse yields the tagged parse failure. -/
theorem get_shot_log_decode_spec_witness :
    zstdMagic.isPrefixOf [0x28, 0xb5, 0x2f, 0xfd] = true ∧
      zstdMagic.isPrefixOf [1, 2, 3] = false ∧
      get_shot_log_decode (fun _ => Except.error "corrupt")
          (fun _ => Except.ok (0 : Nat)) [0x28, 0xb5, 0x2f, 0xfd] =
        Except.error { error := some "corrupt", status := some "Decompression Error" } ∧
      get_shot_log_decode (fun _ => Except.error "corrupt")
          (fun _ => (Except.error "bad json" : Except String Nat)) [1, 2, 3] =
        Except.error { error := some "bad json", status := some "JSON Parse Error" } :=
  ⟨by decide, by decide,
    ((get_shot_log_decode_spec (fun _ => Except.error "corrupt")
        (fun _ => Except.ok (0 : Nat)) [0x28, 0xb5, 0x2f, 0xfd]).1
      (by decide)).1 "corrupt" rfl,
    ((get_shot_log_decode_spec (fun _ => Except.error "corrupt")
        (fun _ => (Except.error "bad json" : Except String Nat)) [1, 2, 3]).2
      (by decide)).1 "bad json" rfl⟩

/- ### Api.get_last_shot_log (api.py 744-765) -/

/-- Model of `HistoryFile` (api_types.py 326-328). -/
structure HistoryFile where
  name : String
  url : String
deriving DecidableEq

/-- Python string `<` compares code points, which is the lexicographic order on
`String.data`. -/
def strLt (a b : String) : Bool := decide (a.data < b.data)

/-- Comparison `strLt` agrees with the string order. -/
theorem strLt_iff (a b : String) : strLt a b = true ↔ a < b := by
  simp [strLt, String.lt_iff_toList_lt, String.toList]

/-- Equation `strLt a b = false` is exactly `b ≤ a`. -/
theorem strLt_eq_false_iff (a b : String) : strLt a b = false ↔ b ≤ a := by
  rw [← not_lt]
  constructor
  · intro h hlt
    rw [(strLt_iff a b).mpr hlt] at h
    cases h
  · intro h
    cases hb : strLt a b with
    | false => rfl
    | true => exact absurd ((strLt_iff a b).mp hb) h

/-- Stable insertion implementing Python's
`list.sort(key=lambda v: v.name, reverse=True)`: an element moves past exactly
those strictly greater by name, keeping original order among ties, so the
result is the stable descending-by-name ordering that `list.sort` produces. -/
def insertDescByName (x : HistoryFile) : List HistoryFile → List HistoryFile
  | [] => [x]
  | y :: ys => if strLt x.name y.name then y :: insertDescByName x ys else x :: y :: ys

/-- The stable descending-by-name sort. -/
def sortDescByName : List HistoryFile → List HistoryFile
  | [] => []
  | x :: xs => insertDescByName x (sortDescByName xs)

theorem insertDescByName_ne_nil (x : HistoryFile) (l : List HistoryFile) :
    insertDescByName x l ≠ [] := by
  cases l with
  | nil => simp [insertDescByName]
  | cons y ys =>
    rw [insertDescByName]
    split <;> simp

theorem sortDescByName_eq_nil_iff (l : List HistoryFile) :
    sortDescByName l = [] ↔ l = [] := by
  cases l with
  | nil => simp [sortDescByName]
  | cons x xs =>
    simp only [sortDescByName]
    constructor
    · intro h
      exact absurd h (insertDescByName_ne_nil x (sortDescByName xs))
    · intro h
      cases h

theorem mem_insertDescByName (x y : HistoryFile) (l : List HistoryFile) :
    y ∈ insertDescByName x l ↔ y = x ∨ y ∈ l := by
  induction l with
  | nil => simp [insertDescByName]
  | cons z zs ih =>
    rw [insertDescByName]
    by_cases h : strLt x.name z.name = true
    · rw [if_pos h]
      simp only [List.mem_cons, ih]
      tauto
    · rw [if_neg h]
      simp only [List.mem_cons]

theorem mem_sortDescByName (y : HistoryFile) (l : List HistoryFile) :
    y ∈ sortDescByName l ↔ y ∈ l := by
  induction l with
  | nil => simp [sortDescByName]
  | cons x xs ih =>
    simp only [sortDescByName, mem_insertDescByName, ih, List.mem_cons]

/-- The head of the descending sort of a nonempty list is a member whose name
is not exceeded by any member's name: the code's `sorted[0]` selects a
lexically largest element. -/
theorem sortDescByName_headD_max (l : List HistoryFile) (hne : l ≠ []) :
    ((sortDescByName l).headD ⟨"", ""⟩) ∈ l ∧
      ∀ y ∈ l, strLt ((sortDescByName l).headD ⟨"", ""⟩).name y.name = false := by
  induction l with
  | nil => exact absurd rfl hne
  | cons x xs ih =>
    cases hs : sortDescByName xs with
    | nil =>
      have hxs : xs = [] := (sortDescByName_eq_nil_iff xs).mp hs
      subst hxs
      refine ⟨by simp [sortDescByName, insertDescByName], ?_⟩
      intro y hy
      have : y = x := by simpa using hy
      subst this
      simp [sortDescByName, insertDescByName,
        (strLt_eq_false_iff y.name y.name).mpr (le_refl y.name)]
    | cons z zs =>
      have hxs : xs ≠ [] := by
        intro h
        rw [h] at hs
        cases hs
      obtain ⟨hzmem, hzmax⟩ := ih hxs
      rw [hs] at hzmem hzmax
      simp only [List.headD_cons] at hzmem hzmax
      simp only [sortDescByName, hs, insertDescByName]
      cases hlt : strLt x.name z.name with
      | true =>
        rw [if_pos rfl]
        simp only [List.headD_cons]
        refine ⟨List.mem_cons_of_mem x hzmem, ?_⟩
        intro y hy
        rcases List.mem_cons.mp hy with hyx | hyxs
        · subst hyx
          exact (strLt_eq_false_iff z.name y.name).mpr
            (le_of_lt ((strLt_iff y.name z.name).mp hlt))
        · exact hzmax y hyxs
      | false =>
        rw [if_neg (by simp)]
        simp only [List.headD_cons]
        refine ⟨List.mem_cons_self x xs, ?_⟩
        intro y hy
        rcases List.mem_cons.mp hy with hyx | hyxs
        · subst hyx
          exact (strLt_eq_false_iff y.name y.name).mpr (le_refl y.name)
        · have h1 : z.name ≤ x.name := (strLt_eq_false_iff x.name z.name).mp hlt
          have h2 : y.name ≤ z.name := (strLt_eq_false_iff z.name y.name).mp (hzmax y hyxs)
          exact (strLt_eq_false_iff x.name y.name).mpr (le_trans h2 h1)

/-- Model of `Api.get_last_shot_log`: list the history date buckets, pick the lexically
largest by name (sort descending, take index 0), list that bucket's shot
files, pick the lexically largest by name, and fetch/decode it via
`get_shot_log(latest_date, latest_file.url)`.  The three collaborator calls
are passed in as values/functions; each step returns early on an `APIError`
and an empty listing yields a "No Data" error. -/
def get_last_shot_log {Doc : Type}
    (get_history_dates : Except APIError (List HistoryFile))
    (get_shot_files : String → Except APIError (List HistoryFile))
    (get_shot_log : String → String → Except APIError Doc) : Except APIError Doc :=
  match get_history_dates with
  | Except.error e => Except.error e
  | Except.ok dates =>
    if dates.isEmpty then
      Except.error { error := some "No history dates found", status := some "No Data" }
    else
      let latest_date := ((sortDescByName dates).headD ⟨"", ""⟩).name
      match get_shot_files latest_date with
      | Except.error e => Except.error e
      | Except.ok files =>
        if files.isEmpty then
          Except.error { error := some ("No shot files found for " ++ latest_date)
                         status := some "No Data" }
        else
          get_shot_log latest_date ((sortDescByName files).headD ⟨"", ""⟩).url

/-- The spec's latest-log example: two date buckets and two shot files, named
as in the testable property, with distinct urls. -/
def exampleDates : List HistoryFile :=
  [{ name := "2024-01-01", url := "b1" }, { name := "2024-01-02", url := "b2" }]

/-- The files of the lexically largest example bucket. -/
def exampleFiles : List HistoryFile :=
  [{ name := "20:55:00.shot.json.zst", url := "u1" },
    { name := "21:04:06.shot.json", url := "u2" }]

/-- A file-listing collaborator returning the example files for every bucket. -/
def exampleGsf : String → Except APIError (List HistoryFile) :=
  fun _ => Except.ok exampleFiles

/-- A decode collaborator recording which bucket and file url it was given. -/
def exampleGsl : String → String → Except APIError String :=
  fun dateBucket fileUrl => Except.ok (dateBucket ++ "/" ++ fileUrl)

/-- C6: `get_last_shot_log` propagates a failing date listing unchanged; on a
nonempty date listing it selects a date bucket that is a member with lexically
largest name, propagates a failing file listing unchanged, and on a nonempty
file listing selects a member file with lexically largest name and returns
`get_shot_log` of that bucket and file (whatever value it produces, error or
success, unchanged); on the spec's example buckets and files it selects bucket
"2024-01-02" and the file named "21:04:06.shot.json" (url "u2"). -/
theorem get_last_shot_log_selection {Doc : Type}
    (ghd : Except APIError (List HistoryFile))
    (gsf : String → Except APIError (List HistoryFile))
    (gsl : String → String → Except APIError Doc) :
    (∀ e, ghd = Except.error e → get_last_shot_log ghd gsf gsl = Except.error e)
  ∧ (∀ dates, ghd = Except.ok dates → dates ≠ [] →
      ∃ d ∈ dates, (∀ x ∈ dates, strLt d.name x.name = false) ∧
        ((∀ e, gsf d.name = Except.error e →
            get_last_shot_log ghd gsf gsl = Except.error e)
          ∧ (∀ files, gsf d.name = Except.ok files → files ≠ [] →
              ∃ f ∈ files, (∀ x ∈ files, strLt f.name x.name = false) ∧
                get_last_shot_log ghd gsf gsl = gsl d.name f.url)))
  ∧ get_last_shot_log (Except.ok exampleDates) exampleGsf exampleGsl
      = exampleGsl "2024-01-02" "u2" := by
  refine ⟨?_, ?_, ?_⟩
  · intro e he
    rw [get_last_shot_log.eq_def, he]
  · intro dates hok hne
    obtain ⟨hmem, hmax⟩ := sortDescByName_headD_max dates hne
    refine ⟨(sortDescByName dates).headD ⟨"", ""⟩, hmem, hmax, ?_, ?_⟩
    · intro e he
      have hemp : dates.isEmpty = false := by
        cases dates with
        | nil => exact absurd rfl hne
        | cons a as => rfl
      rw [get_last_shot_log.eq_def, hok]
      simp only [hemp, Bool.false_eq_true, if_false, he]
    · intro files hfok hfne
      obtain ⟨hfmem, hfmax⟩ := sortDescByName_headD_max files hfne
      refine ⟨(sortDescByName files).headD ⟨"", ""⟩, hfmem, hfmax, ?_⟩
      have hemp : dates.isEmpty = false := by
        cases dates with
        | nil => exact absurd rfl hne
        | cons a as => rfl
      have hfemp : files.isEmpty = false := by
        cases files with
        | nil => exact absurd rfl hfne
        | cons a as => rfl
      rw [get_last_shot_log.eq_def, hok]
      simp only [hemp, Bool.false_eq_true, if_false, hfok, hfemp]
  · have hd12 : strLt "2024-01-01" "2024-01-02" = true := by decide
    have hf12 : strLt "20:55:00.shot.json.zst" "21:04:06.shot.json" = true := by decide
    simp [get_last_shot_log.eq_def, exampleDates, exampleGsf, exampleFiles,
      sortDescByName, insertDescByName, hd12, hf12]

/-- C6 witness. -/
theorem get_last_shot_log_selection_witness :
    ∃ d ∈ exampleDates, (∀ x ∈ exampleDates, strLt d.name x.name = false) ∧
      ((∀ e, exampleGsf d.name = Except.error e →
          get_last_shot_log (Except.ok exampleDates) exampleGsf exampleGsl
            = Except.error e)
        ∧ (∀ files, exampleGsf d.name = Except.ok files → files ≠ [] →
            ∃ f ∈ files, (∀ x ∈ files, strLt f.name x.name = false) ∧
              get_last_shot_log (Except.ok exampleDates) exampleGsf exampleGsl
                = exampleGsl d.name f.url)) :=
  (get_last_shot_log_selection (Except.ok exampleDates) exampleGsf exampleGsl).2.1
    exampleDates rfl (by decide)

/-- C10: a successful but empty date listing yields the returned "No Data"
error naming the missing dates, independently of the file-listing and decode
collaborators; a successful but empty file listing for the selected latest
bucket yields the returned "No Data" error naming that bucket, independently
of the decode collaborator. -/
theorem get_last_shot_log_no_data {Doc : Type}
    (ghd : Except APIError (List HistoryFile))
    (gsf : String → Except APIError (List HistoryFile))
    (gsl : String → String → Except APIError Doc) :
    (ghd = Except.ok [] →
      get_last_shot_log ghd gsf gsl =
        Except.error { error := some "No history dates found"
                       status := some "No Data" })
  ∧ (∀ dates, ghd = Except.ok dates → dates ≠ [] →
      gsf ((sortDescByName dates).headD ⟨"", ""⟩).name = Except.ok [] →
      get_last_shot_log ghd gsf gsl =
        Except.error { error := some ("No shot files found for " ++
                         ((sortDescByName dates).headD ⟨"", ""⟩).name)
                       status := some "No Data" }) := by
  constructor
  · intro he
    rw [get_last_shot_log.eq_def, he]
    rfl
  · intro dates hok hne hfiles
    have hemp : dates.isEmpty = false := by
      cases dates with
      | nil => exact absurd rfl hne
      | cons a as => rfl
    rw [get_last_shot_log.eq_def, hok]
    simp only [hemp, Bool.false_eq_true, if_false, hfiles, List.isEmpty_nil, if_true]

/-- C10 witness. -/
theorem get_last_shot_log_no_data_witness :
    (get_last_shot_log (Except.ok [])
        (fun _ => Except.ok ([] : List HistoryFile))
        (fun _ _ => (Except.ok 0 : Except APIError Nat)) =
      Except.error { error := some "No history dates found"
                     status := some "No Data" })
  ∧ (get_last_shot_log (Except.ok [(⟨"2024-01-02", "b2"⟩ : HistoryFile)])
        (fun _ => Except.ok ([] : List HistoryFile))
        (fun _ _ => (Except.ok 0 : Except APIError Nat)) =
      Except.error { error := some ("No shot files found for " ++ "2024-01-02")
                     status := some "No Data" }) :=
  ⟨(get_last_shot_log_no_data (Except.ok [])
      (fun _ => Except.ok ([] : List HistoryFile))
      (fun _ _ => (Except.ok 0 : Except APIError Nat))).1 rfl,
    (get_last_shot_log_no_data (Except.ok [(⟨"2024-01-02", "b2"⟩ : HistoryFile)])
      (fun _ => Except.ok ([] : List HistoryFile))
      (fun _ _ => (Except.ok 0 : Except APIError Nat))).2
      [(⟨"2024-01-02", "b2"⟩ : HistoryFile)] rfl (by decide) rfl⟩
